import Mathlib

/-!
Verification of the job-orchestration core of `smart-comp-web`
(`backend/app/core/jobs.py`, `job_service.py`, `storage.py`, `kw_zip.py`,
`backend/app/worker/runner.py`) against its natural-language specification.

The Python code is shallowly embedded: Redis is modelled as explicit state
(association lists for the record keyspace, a list of job ids for the
cancellation-flag keyspace, an `Option Int` for the semaphore counter key),
`datetime` values as a clock reading in microseconds plus a timezone-awareness
flag (ISO-8601 serialisation round-trips a datetime exactly, so the textual
wire form is modelled by the value it denotes), and exceptions as `Except`.
All definitions are computable.
-/

namespace SmartComp

/-- Model of a Python `datetime`: the clock reading (microseconds, as read off
the clock face, ignoring the offset) together with whether the value is
timezone-aware.  `datetime.isoformat` serialises both pieces exactly and
`datetime.fromisoformat` restores them, so serialisation through the JSON
record is modelled as the identity on this type;
the only observable transformation in the repository code is
`_parse_datetime`'s coercion of a naive value to a UTC-aware one. -/
structure PyDatetime where
  micros : Int
  aware : Bool
deriving DecidableEq, Repr

/-- `jobs.py` `JobStatus`: the five lifecycle states. -/
inductive JobStatus where
  | QUEUED
  | RUNNING
  | COMPLETED
  | FAILED
  | CANCELLED
deriving DecidableEq, Repr

/-- The terminal statuses (spec section 4.1). -/
def JobStatus.isTerminal : JobStatus → Bool
  | .COMPLETED => true
  | .FAILED => true
  | .CANCELLED => true
  | _ => false

/-- `jobs.py` `JobProgress` dataclass. `percent` is modelled as a rational. -/
structure JobProgress where
  percent : Rat
  step : Option String
  message : Option String
deriving DecidableEq, Repr

/-- Default-constructed `JobProgress()` (percent 0.0, step None, message None). -/
def JobProgress.init : JobProgress := { percent := 0, step := none, message := none }

/-- The serialised form of `JobProgress` (`JobProgress.to_dict`): all three keys
are always present, so the dict has the same shape as the dataclass. -/
structure ProgressDict where
  percent : Rat
  step : Option String
  message : Option String
deriving DecidableEq, Repr

/-- `JobProgress.to_dict`. -/
def JobProgress.to_dict (p : JobProgress) : ProgressDict :=
  { percent := p.percent, step := p.step, message := p.message }

/-- `JobProgress.from_dict`: `None` (and the empty dict, which `to_dict` never
produces) yields the default instance; otherwise the fields are read back. -/
def JobProgress.from_dict : Option ProgressDict → JobProgress
  | none => JobProgress.init
  | some d => { percent := d.percent, step := d.step, message := d.message }

/-- `jobs.py` `JobRecord` dataclass. -/
structure JobRecord where
  job_id : String
  job_type : String
  status : JobStatus
  created_at : PyDatetime
  started_at : Option PyDatetime
  finished_at : Option PyDatetime
  task_id : Option String
  progress : JobProgress
  error : Option String
deriving DecidableEq, Repr

/-- The JSON object produced by `JobRecord.to_dict` (and stored by
`JobRepository.save` via `json.dumps`).  The enum is serialised through its
unique string value and datetimes through their exact ISO-8601 text, both of
which round-trip bijectively, so the wire fields are modelled by the values
they denote. -/
structure JobDict where
  jobId : String
  jobType : String
  status : JobStatus
  createdAt : PyDatetime
  startedAt : Option PyDatetime
  finishedAt : Option PyDatetime
  taskId : Option String
  progress : ProgressDict
  error : Option String
deriving DecidableEq, Repr

/-- `JobRecord.to_dict`. -/
def JobRecord.to_dict (r : JobRecord) : JobDict :=
  { jobId := r.job_id
    jobType := r.job_type
    status := r.status
    createdAt := r.created_at
    startedAt := r.started_at
    finishedAt := r.finished_at
    taskId := r.task_id
    progress := r.progress.to_dict
    error := r.error }

/-- `jobs.py` `_parse_datetime` on a present value: `datetime.fromisoformat`
recovers the datetime exactly; a naive value then has UTC attached
(`parsed.replace(tzinfo=timezone.utc)`), keeping the clock reading. -/
def parseDatetime1 (d : PyDatetime) : PyDatetime :=
  if d.aware then d else { d with aware := true }

/-- `jobs.py` `_parse_datetime`: `None`/empty text maps to `None`. -/
def parseDatetime : Option PyDatetime → Option PyDatetime
  | none => none
  | some d => some (parseDatetime1 d)

/-- `JobRecord.from_dict`. -/
def JobRecord.from_dict (d : JobDict) : JobRecord :=
  { job_id := d.jobId
    job_type := d.jobType
    status := d.status
    created_at := parseDatetime1 d.createdAt
    started_at := parseDatetime d.startedAt
    finished_at := parseDatetime d.finishedAt
    task_id := d.taskId
    progress := JobProgress.from_dict (some d.progress)
    error := d.error }

/-! ### Repository state

`JobRepository` keeps, in Redis, the serialised record under key
`"job:" ++ jobId` and the cancellation flag (string `"1"`) under key
`"job:" ++ jobId ++ ":cancel"`.  The two key families are modelled as two
separate maps (they are disjoint for the UUID job ids the system generates,
which never contain `":"`); the flag map stores the set of ids whose flag key
is present (its value is always `"1"`). -/

/-- The record keyspace: an association list from the full Redis key to the
stored JSON object. -/
def JobMap := List (String × JobDict)
deriving DecidableEq, Repr

/-- Redis `SET`: overwrite or append. -/
def setKey : List (String × JobDict) → String → JobDict → List (String × JobDict)
  | [], k, v => [(k, v)]
  | (k', v') :: rest, k, v =>
    if k' = k then (k, v) :: rest else (k', v') :: setKey rest k v

/-- Redis `GET`. -/
def getKey : List (String × JobDict) → String → Option JobDict
  | [], _ => none
  | (k', v') :: rest, k => if k' = k then some v' else getKey rest k

/-- Shared store state seen by `JobRepository`. -/
structure RepoState where
  jobs : List (String × JobDict)
  flags : List String
deriving DecidableEq, Repr

/-- `JobRepository._job_key` (namespace `"job"`). -/
def jobKey (jobId : String) : String := "job:" ++ jobId

namespace JobRepository

/-- `JobRepository.save`: serialise and `SET`; returns the record unchanged. -/
def save (st : RepoState) (r : JobRecord) : RepoState × JobRecord :=
  ({ st with jobs := setKey st.jobs (jobKey r.job_id) r.to_dict }, r)

/-- `JobRepository.get`: `GET` and deserialise (missing key gives `None`). -/
def get (st : RepoState) (jobId : String) : Option JobRecord :=
  (getKey st.jobs (jobKey jobId)).map JobRecord.from_dict

/-- `JobRepository.mark_cancel_flag`: `SET` of the cancel key to `"1"`. -/
def mark_cancel_flag (st : RepoState) (jobId : String) : RepoState :=
  if jobId ∈ st.flags then st else { st with flags := jobId :: st.flags }

/-- `JobRepository.clear_cancel_flag`: `DELETE` of the cancel key. -/
def clear_cancel_flag (st : RepoState) (jobId : String) : RepoState :=
  { st with flags := st.flags.erase jobId }

/-- `JobRepository.is_cancel_requested`: the only value ever written is `"1"`,
so the flag reads true exactly when the key is present. -/
def is_cancel_requested (st : RepoState) (jobId : String) : Bool :=
  jobId ∈ st.flags

/-- `JobRepository.update_status`: fetch-mutate-store.  A missing record raises
`KeyError`; otherwise the status is set unconditionally, `started_at` and
`finished_at` are overwritten only when supplied, and `error` is overwritten
unconditionally with the supplied argument (defaulting to `None`). -/
def update_status (st : RepoState) (jobId : String) (status : JobStatus)
    (started_at : Option PyDatetime) (finished_at : Option PyDatetime)
    (error : Option String) : Except String (RepoState × JobRecord) :=
  match get st jobId with
  | none => .error ("KeyError: Job " ++ jobId ++ " not found")
  | some record =>
    let record' : JobRecord :=
      { record with
        status := status
        started_at := match started_at with
          | some d => some d
          | none => record.started_at
        finished_at := match finished_at with
          | some d => some d
          | none => record.finished_at
        error := error }
    .ok (save st record')

/-- `JobRepository.update_progress`: fetch-mutate-store; each progress field is
overwritten only when supplied. -/
def update_progress (st : RepoState) (jobId : String)
    (percent : Option Rat) (step : Option String) (message : Option String) :
    Except String (RepoState × JobRecord) :=
  match get st jobId with
  | none => .error ("KeyError: Job " ++ jobId ++ " not found")
  | some record =>
    let p := record.progress
    let p' : JobProgress :=
      { percent := match percent with
          | some v => v
          | none => p.percent
        step := match step with
          | some v => some v
          | none => p.step
        message := match message with
          | some v => some v
          | none => p.message }
    .ok (save st { record with progress := p' })

/-- `JobRepository.update_task_id`: fetch-mutate-store. -/
def update_task_id (st : RepoState) (jobId : String) (taskId : String) :
    Except String (RepoState × JobRecord) :=
  match get st jobId with
  | none => .error ("KeyError: Job " ++ jobId ++ " not found")
  | some record => .ok (save st { record with task_id := some taskId })

end JobRepository

/-! ### Admission control (`JobSemaphore`)

The Redis counter key is modelled as `Option Int` (`none` = key absent; a
missing key reads as `'0'`).  The `acquire`/`release` Lua scripts run
atomically on the Redis server, so any concurrent history linearises into a
sequence of whole `acquire`/`release` steps; the expiry (`EXPIRE`) only
shortens the key's lifetime and is not part of the counter arithmetic, so it
is not modelled. -/

namespace JobSemaphore

/-- The counter value a script reads: `tonumber(redis.call('get', k) or '0')`. -/
def semVal (sem : Option Int) : Int := sem.getD 0

/-- `JobSemaphore.acquire` (the Lua script): at or above the limit, return
false without touching the key; otherwise `INCR` (which creates an absent key
at 1) and return true. -/
def acquire (sem : Option Int) (limit : Int) : Bool × Option Int :=
  let current := semVal sem
  if current ≥ limit then (false, sem)
  else (true, some (current + 1))

/-- `JobSemaphore.release` (the Lua script): a non-positive (or absent) counter
is deleted; otherwise `DECR`, deleting the key when the decremented value is
non-positive. -/
def release (sem : Option Int) : Option Int :=
  let current := semVal sem
  if current ≤ 0 then none
  else
    let updated := current - 1
    if updated ≤ 0 then none else some updated

/-- One step of an interleaved acquire/release history. -/
inductive SemOp where
  | acq
  | rel
deriving DecidableEq, Repr

/-- Apply one history step to the counter key. -/
def semStep (limit : Int) (sem : Option Int) : SemOp → Option Int
  | .acq => (acquire sem limit).2
  | .rel => release sem

/-- Run a history from a given counter state. -/
def runFrom (limit : Int) (sem : Option Int) : List SemOp → Option Int
  | [] => sem
  | op :: ops => runFrom limit (semStep limit sem op) ops

/-- Run a history from the initial state (no counter key). -/
def runSem (limit : Int) (ops : List SemOp) : Option Int :=
  runFrom limit none ops

end JobSemaphore

/-! ### `JobService.cancel_job` (`job_service.py`)

Modelled with authentication disabled (the `_authorize` no-op path) and with
the external side effects (Celery `revoke`, filesystem cleanup of a QUEUED
job's directories) out of scope: the claim under verification concerns the
status check and the record transition. -/

/-- `api/errors.py` `ApiError`: HTTP status, machine code, message. -/
structure ApiError where
  status : Nat
  code : String
  message : String
deriving DecidableEq, Repr

/-- The string value of a status (`JobStatus.value`). -/
def JobStatus.value : JobStatus → String
  | .QUEUED => "QUEUED"
  | .RUNNING => "RUNNING"
  | .COMPLETED => "COMPLETED"
  | .FAILED => "FAILED"
  | .CANCELLED => "CANCELLED"

namespace JobService

/-- `JobService.cancel_job`: not-found gives 404; a record already in
`{COMPLETED, FAILED, CANCELLED}` gives 409 `INVALID_STATE`; otherwise the
cancel flag is marked and the record moved to CANCELLED with a finish time and
error "Cancelled". -/
def cancel_job (st : RepoState) (jobId : String) (tFinish : PyDatetime) :
    Except ApiError (RepoState × JobRecord) :=
  match JobRepository.get st jobId with
  | none => .error ⟨404, "NOT_FOUND", "Job " ++ jobId ++ " not found."⟩
  | some record =>
    if record.status.isTerminal then
      .error ⟨409, "INVALID_STATE",
        "Job " ++ jobId ++ " is already " ++ record.status.value ++ "."⟩
    else
      let st1 := JobRepository.mark_cancel_flag st jobId
      match JobRepository.update_status st1 jobId .CANCELLED none (some tFinish)
          (some "Cancelled") with
      | .error e => .error ⟨500, "INTERNAL", e⟩
      | .ok res => .ok res

end JobService

/-! ### The lifecycle runner (`worker/runner.py` `JobRunner`)

`JobRunner.execute` is embedded with its observable effects traced: the final
store and semaphore state, the returned record or escaping exception, and
counters for `clear_cancel_flag`, `JobSemaphore.release`, `cleanup_job` and
`cleanup_after_completion` calls, plus the list of statuses successfully
written through `update_status`.  The body of the `try` block between
entering RUNNING and the terminal transition (`_run_job`, i.e. the Executor
boundary) is passed in as a function from store state to store state plus an
outcome — normal return, `JobCancelledError`, `JobTimeoutError`, or any other
exception with its message — which covers every behaviour of the Python body.
The optional `set_task_id` callback is modelled as absent, and the filesystem
cleanup helpers are modelled by their call counters (their effect is on the
job directory tree, disjoint from the store). -/

/-- Outcome of the `try`-block body (`_run_job` / Executor boundary). -/
inductive RunOutcome where
  | ok
  | cancelled
  | timeout (msg : String)
  | failure (msg : String)
deriving DecidableEq, Repr

/-- Result of `JobRunner._guard`. -/
inductive GuardResult where
  | cancelledSignal
  | timeoutSignal
  | passed
deriving DecidableEq, Repr

/-- `JobRunner._guard`: raise `JobCancelledError` when the cancellation flag is
set (checked first); else raise `JobTimeoutError` when `now > deadline`; else
return.  It only reads the store (one `GET` of the flag key) — no state is
written on any branch.  `now` and `deadline` are both produced aware in the
runner, so the Python `>` compares the clock readings. -/
def jobGuard (st : RepoState) (jobId : String) (now deadline : PyDatetime) :
    GuardResult :=
  if JobRepository.is_cancel_requested st jobId then .cancelledSignal
  else if now.micros > deadline.micros then .timeoutSignal
  else .passed

/-- Trace of one `JobRunner.execute` invocation. -/
structure ExecOutcome where
  repo : RepoState
  sem : Option Int
  ret : Option JobRecord
  raised : Option String
  clearFlagCalls : Nat
  releaseCalls : Nat
  statusUpdates : List JobStatus
  cleanupJobCalls : Nat
  cleanupCompletionCalls : Nat
deriving DecidableEq, Repr

/-- Intermediate result of the `try`/`except` suite (before `finally`). -/
structure BodyOutcome where
  repo : RepoState
  result : Except String JobRecord
  statusUpdates : List JobStatus
  cleanupJobCalls : Nat
  cleanupCompletionCalls : Nat
deriving Repr

namespace JobRunner

/-- The `except Exception` handler: transition to FAILED with the exception's
message and clean the job directory.  An error raised by `update_status`
itself propagates out of the handler (skipping `cleanup_job`). -/
def exceptAll (st : RepoState) (jobId : String) (tFinish : PyDatetime)
    (msg : String) (pre : List JobStatus) : BodyOutcome :=
  match JobRepository.update_status st jobId .FAILED none (some tFinish)
      (some msg) with
  | .ok (st', fin) => ⟨st', .ok fin, pre ++ [.FAILED], 1, 0⟩
  | .error e => ⟨st, .error e, pre, 0, 0⟩

/-- The `except JobCancelledError` handler: transition to CANCELLED with error
"Cancelled" and clean the job directory. -/
def exceptCancelled (st : RepoState) (jobId : String) (tFinish : PyDatetime) :
    BodyOutcome :=
  match JobRepository.update_status st jobId .CANCELLED none (some tFinish)
      (some "Cancelled") with
  | .ok (st', fin) => ⟨st', .ok fin, [.CANCELLED], 1, 0⟩
  | .error e => ⟨st, .error e, [], 0, 0⟩

/-- The `except JobTimeoutError` handler: transition to FAILED with the
timeout message and clean the job directory. -/
def exceptTimeout (st : RepoState) (jobId : String) (tFinish : PyDatetime)
    (msg : String) : BodyOutcome :=
  match JobRepository.update_status st jobId .FAILED none (some tFinish)
      (some msg) with
  | .ok (st', fin) => ⟨st', .ok fin, [.FAILED], 1, 0⟩
  | .error e => ⟨st, .error e, [], 0, 0⟩

/-- The `try`/`except` suite after `_run_job` has produced its outcome.  On
normal return: transition to COMPLETED, force progress to 100%/"completed",
run `cleanup_after_completion`, and return the COMPLETED record; a store
exception inside this success path is caught by the `except Exception`
handler. -/
def trySuite (st : RepoState) (jobId : String) (out : RunOutcome)
    (tFinish : PyDatetime) : BodyOutcome :=
  match out with
  | .ok =>
    match JobRepository.update_status st jobId .COMPLETED none (some tFinish)
        none with
    | .error e => exceptAll st jobId tFinish e []
    | .ok (st1, fin) =>
      match JobRepository.update_progress st1 jobId (some 100)
          (some "completed") none with
      | .error e => exceptAll st1 jobId tFinish e [.COMPLETED]
      | .ok (st2, _) => ⟨st2, .ok fin, [.COMPLETED], 0, 1⟩
  | .cancelled => exceptCancelled st jobId tFinish
  | .timeout msg => exceptTimeout st jobId tFinish msg
  | .failure msg => exceptAll st jobId tFinish msg []

/-- The first step of `JobRunner.execute`: load the record, or construct it as
QUEUED (`self.repository.get(job_id) or JobRecord(...)`). -/
def initialRecord (st0 : RepoState) (jobId jobType : String)
    (tNew : PyDatetime) : JobRecord :=
  match JobRepository.get st0 jobId with
  | some r => r
  | none =>
    { job_id := jobId, job_type := jobType, status := .QUEUED,
      created_at := tNew, started_at := none, finished_at := none,
      task_id := none, progress := JobProgress.init, error := none }

/-- `JobRunner.execute`.  Steps: load or construct the record as QUEUED and
persist it; attempt `Semaphore.acquire`; on rejection, transition to FAILED
with error "Concurrency limit reached", clean the job directory, and return
(this happens before the `try` block, so no `finally` runs); on admission,
transition to RUNNING with `started_at`, run the body, dispatch its outcome
through the handlers, and in `finally` clear the cancellation flag and
release the semaphore exactly once. -/
def execute (maxConc : Int) (st0 : RepoState) (sem0 : Option Int)
    (jobId jobType : String) (runJob : RepoState → RepoState × RunOutcome)
    (tNew tStart tFinish : PyDatetime) : ExecOutcome :=
  let record := initialRecord st0 jobId jobType tNew
  let saved := JobRepository.save st0 record
  let st1 := saved.1
  let adm := JobSemaphore.acquire sem0 maxConc
  if adm.1 then
    match JobRepository.update_status st1 jobId .RUNNING (some tStart) none
        none with
    | .error e => ⟨st1, adm.2, none, some e, 0, 0, [], 0, 0⟩
    | .ok (st2, _) =>
      let run := runJob st2
      let body := trySuite run.1 jobId run.2 tFinish
      let stF := JobRepository.clear_cancel_flag body.repo jobId
      let semF := JobSemaphore.release adm.2
      match body.result with
      | .ok fin =>
        ⟨stF, semF, some fin, none, 1, 1, .RUNNING :: body.statusUpdates,
          body.cleanupJobCalls, body.cleanupCompletionCalls⟩
      | .error e =>
        ⟨stF, semF, none, some e, 1, 1, .RUNNING :: body.statusUpdates,
          body.cleanupJobCalls, body.cleanupCompletionCalls⟩
  else
    match JobRepository.update_status st1 jobId .FAILED none (some tFinish)
        (some "Concurrency limit reached") with
    | .error e => ⟨st1, adm.2, none, some e, 0, 0, [], 0, 0⟩
    | .ok (st2, fin) => ⟨st2, adm.2, some fin, none, 0, 0, [.FAILED], 1, 0⟩

end JobRunner

/-! ### Storage lifecycle (`storage.py`)

Paths are modelled with pathlib's POSIX semantics: a pure path is an
absoluteness flag plus a component list; construction collapses spurious
slashes and single dots, and `resolve()` normalises `..` against the process
working directory (symlinks are not modelled — the job storage tree contains
none).  `PurePath.parts` additionally exposes the root marker `"/"` as a
leading part for absolute paths. -/

/-! Character-level helpers mirroring the Python string operations used by
`storage.py` and `kw_zip.py`; written on `List Char` so that concrete
instances evaluate inside the kernel.  Lowercasing is ASCII (every string it
is applied to here is a sanitized name or an extension being compared with
the ASCII literal `".csv"`). -/

/-- Split a character list at every occurrence of `sep` (`str.split(sep)`):
the accumulator holds the current segment reversed. -/
def splitCharsAux (sep : Char) : List Char → List Char → List (List Char)
  | [], acc => [acc.reverse]
  | c :: rest, acc =>
    if c = sep then acc.reverse :: splitCharsAux sep rest []
    else splitCharsAux sep rest (c :: acc)

/-- `str.split(sep)` for a one-character separator. -/
def strSplit (s : String) (sep : Char) : List String :=
  (splitCharsAux sep s.data []).map String.mk

/-- The first list is an initial run of the second. -/
def leadChars : List Char → List Char → Bool
  | [], _ => true
  | _ :: _, [] => false
  | p :: ps, c :: cs => p == c && leadChars ps cs

/-- `s.startswith(t)`. -/
def strLead (t s : String) : Bool := leadChars t.data s.data

/-- `s.endswith(t)`. -/
def strTail (t s : String) : Bool := leadChars t.data.reverse s.data.reverse

/-- ASCII lowercasing of one character. -/
def charLower (c : Char) : Char :=
  if 'A' ≤ c && c ≤ 'Z' then Char.ofNat (c.toNat + 32) else c

/-- ASCII `str.lower()`. -/
def strLower (s : String) : String := String.mk (s.data.map charLower)

/-- Code-point lexicographic strict order on character lists (Python string
comparison). -/
def charListLt : List Char → List Char → Bool
  | [], [] => false
  | [], _ :: _ => true
  | _ :: _, [] => false
  | a :: as, b :: bs => a < b || (a == b && charListLt as bs)

/-- A `pathlib` pure path: absoluteness plus components (no `""`/`"."`). -/
structure PurePathM where
  absolute : Bool
  comps : List String
deriving DecidableEq, Repr

/-- Parse a path string the way `PurePosixPath` does: leading `/` makes it
absolute; empty and `"."` components are dropped. -/
def parsePath (s : String) : PurePathM :=
  { absolute := strLead "/" s
    comps := (strSplit s '/').filter (fun c => !(c == "") && !(c == ".")) }

/-- `PurePath.parts`: the root marker is a leading part of an absolute path. -/
def pparts (p : PurePathM) : List String :=
  if p.absolute then "/" :: p.comps else p.comps

/-- `PurePath.name`: the final component (empty for the bare root). -/
def pathName (p : PurePathM) : String := p.comps.getLast?.getD ""

/-- `joinpath` with one argument: an absolute right operand replaces the left
one entirely. -/
def joinOne (p q : PurePathM) : PurePathM :=
  if q.absolute then q else { absolute := p.absolute, comps := p.comps ++ q.comps }

/-- `joinpath(*parts)`. -/
def joinMany (p : PurePathM) (parts : List PurePathM) : PurePathM :=
  parts.foldl joinOne p

/-- `..` elimination performed by `resolve()`: `..` at the root stays at the
root. -/
def normComps (cs : List String) : List String :=
  cs.foldl (fun acc c => if c = ".." then acc.dropLast else acc ++ [c]) []

/-- `Path.resolve()`: anchor a relative path at the working directory, then
normalise.  `cwd` is the working directory's (already canonical) component
list. -/
def resolveP (cwd : List String) (p : PurePathM) : List String :=
  normComps (if p.absolute then p.comps else cwd ++ p.comps)

/-- `PurePath.parents` of an absolute path, as component lists: every proper
initial segment, down to the root `[]`. -/
def parentsOf (comps : List String) : List (List String) :=
  (List.range comps.length).map (fun n => comps.take n)

/-- The resolved base used by `safe_join` (`base.resolve()`). -/
def resolvedBase (cwd : List String) (base : PurePathM) : List String :=
  resolveP cwd base

/-- The resolved candidate used by `safe_join`
(`base_resolved.joinpath(*parts).resolve()`). -/
def resolvedCandidate (cwd : List String) (base : PurePathM)
    (parts : List PurePathM) : List String :=
  resolveP cwd (joinMany { absolute := true, comps := resolvedBase cwd base } parts)

/-- `storage.py` `safe_join`: succeed with the resolved candidate when it
equals the resolved base or has the resolved base among its parents; raise
`ValueError` otherwise. -/
def safe_join (cwd : List String) (base : PurePathM) (parts : List PurePathM) :
    Except String (List String) :=
  let baseR := resolvedBase cwd base
  let candR := resolvedCandidate cwd base parts
  if candR = baseR ∨ baseR ∈ parentsOf candR then .ok candR
  else .error "Unsafe path traversal attempted outside base"

/-- `b` is an initial segment of `c` (the spec's "equal to or nested under"
when the two are resolved absolute component lists). -/
def isInitSeg : List String → List String → Bool
  | [], _ => true
  | _ :: _, [] => false
  | a :: as, b :: bs => a == b && isInitSeg as bs

/-- Whether an `Except` is a success. -/
def exceptOk {ε α : Type} : Except ε α → Bool
  | .ok _ => true
  | .error _ => false

/-- A top-level entry of the storage root as seen by `iterdir()`: its name,
whether it is a directory, and its last-modified time.  Times are instants on
a rational timeline measured in hours, so `timedelta(hours=ttl)` is
subtraction of `ttl`. -/
structure DirEntry where
  name : String
  isDir : Bool
  mtime : Rat
deriving DecidableEq, Repr

/-- The `for entry in storage_root.iterdir()` loop of `sweep_expired_jobs`:
skip non-directories, skip entries whose `safe_join` raises, delete
unconditionally when `ttl_hours == 0`, otherwise delete when the entry's
mtime is at or before `cutoff`; collect the resolved paths deleted. -/
def sweepLoop (cwd : List String) (storageRoot : PurePathM) (ttl : Rat)
    (cutoff : Rat) : List DirEntry → List (List String)
  | [] => []
  | e :: rest =>
    if !e.isDir then sweepLoop cwd storageRoot ttl cutoff rest
    else
      match safe_join cwd storageRoot [parsePath e.name] with
      | .error _ => sweepLoop cwd storageRoot ttl cutoff rest
      | .ok resolved =>
        let shouldDelete := if ttl = 0 then true else decide (e.mtime ≤ cutoff)
        if shouldDelete then resolved :: sweepLoop cwd storageRoot ttl cutoff rest
        else sweepLoop cwd storageRoot ttl cutoff rest

/-- `storage.py` `sweep_expired_jobs`: absent or negative TTL deletes nothing,
as does a missing storage root; otherwise the sweep loop runs with
`cutoff = now - ttl`.  `rmtree` is modelled by membership in the returned
list of deleted resolved paths (deleting one top-level entry does not affect
the others). -/
def sweep_expired_jobs (cwd : List String) (storageRoot : PurePathM)
    (rootExists : Bool) (entries : List DirEntry) (ttlHours : Option Rat)
    (now : Rat) : List (List String) :=
  match ttlHours with
  | none => []
  | some ttl =>
    if ttl < 0 then []
    else if !rootExists then []
    else sweepLoop cwd storageRoot ttl (now - ttl) entries

/-! ### Bundle validator (`kw_zip.py`)

An archive is modelled by its entry-name list (`ZipFile.infolist()` order);
`ZipInfo.is_dir()` holds exactly when the stored name ends in `/`.  The
`BadZipFile` branch (`INVALID_ZIP`) precedes entry enumeration and is outside
this model. -/

/-- Index of the last `'.'` in a character list (`str.rfind('.')` when
present). -/
def lastDotIdx : List Char → Option Nat
  | [] => none
  | c :: rest =>
    match lastDotIdx rest with
    | some i => some (i + 1)
    | none => if c = '.' then some 0 else none

/-- `PurePath.suffix` of a final component: the substring from the last dot,
provided that dot is neither leading nor trailing. -/
def pySuffix (name : String) : String :=
  let cs := name.toList
  match lastDotIdx cs with
  | none => ""
  | some i => if 0 < i ∧ i < cs.length - 1 then String.mk (cs.drop i) else ""

/-- `PurePath.stem` of a final component: the component with its suffix
removed. -/
def pyStem (name : String) : String :=
  let cs := name.toList
  match lastDotIdx cs with
  | none => name
  | some i => if 0 < i ∧ i < cs.length - 1 then String.mk (cs.take i) else name

/-- `_iter_csv_entries` membership: keep non-directory entries not under the
ignored `__MACOSX/`/dot-file spellings, with no dot-prefixed path component,
whose suffix is `.csv` case-insensitively. -/
def isQualifyingEntry (f : String) : Bool :=
  !(strTail "/" f) &&
  !(strLead "__MACOSX/" f) && !(strLead "." f) &&
  !((pparts (parsePath f)).any (fun part => strLead "." part)) &&
  (strLower (pySuffix (pathName (parsePath f))) == ".csv")

/-- `_iter_csv_entries`: the qualifying CSV entry names, in archive order. -/
def csvEntries (filenames : List String) : List String :=
  filenames.filter isQualifyingEntry

/-- Characters left untouched by `_sanitize_group_name` (`[A-Za-z0-9._-]`). -/
def isAllowedChar (c : Char) : Bool :=
  c.isAlpha || c.isDigit || c == '.' || c == '_' || c == '-'

/-- Collapse runs of `_` to a single `_` (`re.sub(r"_+", "_", ·)`); the flag
records whether the previous kept character was `_`. -/
def collapseAux : Bool → List Char → List Char
  | _, [] => []
  | prevU, c :: rest =>
    if c = '_' then
      if prevU then collapseAux true rest else '_' :: collapseAux true rest
    else c :: collapseAux false rest

/-- `kw_zip.py` `_sanitize_group_name`: trim whitespace, replace disallowed
characters with `_`, collapse `_` runs, strip `_` from both ends, truncate to
64 characters. -/
def sanitize_group_name (name : String) : String :=
  let trimmed := ((name.toList.dropWhile Char.isWhitespace).reverse.dropWhile
    Char.isWhitespace).reverse
  let replaced := trimmed.map (fun c => if isAllowedChar c then c else '_')
  let collapsed := collapseAux false replaced
  let stripped := ((collapsed.dropWhile (· = '_')).reverse.dropWhile
    (· = '_')).reverse
  String.mk (stripped.take 64)

/-- `KWZipValidationError`, carrying its machine-readable code.  The optional
`details` payload (only ever populated for `EMPTY_GROUP`) is not modelled. -/
structure KWError where
  code : String
  message : String
deriving DecidableEq, Repr

/-- `kw_zip.py` `KWGroup`. -/
structure KWGroup where
  name : String
  files : List String
deriving DecidableEq, Repr

/-- `kw_zip.py` `KWZipLayout`. -/
structure KWZipLayout where
  layout : String
  groups : List KWGroup
deriving DecidableEq, Repr

/-- Lookup in the `normalized_sources` dict. -/
def lookupStr : List (String × String) → String → Option String
  | [], _ => none
  | (k', v') :: rest, k => if k' = k then some v' else lookupStr rest k

/-- `groups.setdefault(group, []).append(filename)` on an insertion-ordered
dict. -/
def appendFile : List (String × List String) → String → String →
    List (String × List String)
  | [], k, f => [(k, [f])]
  | (k', fs) :: rest, k, f =>
    if k' = k then (k', fs ++ [f]) :: rest else (k', fs) :: appendFile rest k f

/-- The layout-A grouping loop: group key is the sanitized first path
component; two distinct raw names normalising to the same key collide. -/
def buildGroupsA : List String → List (String × String) →
    List (String × List String) → Except KWError (List (String × List String))
  | [], _, groups => .ok groups
  | f :: rest, srcs, groups =>
    let groupRaw := (pparts (parsePath f)).headD ""
    let group := sanitize_group_name groupRaw
    let normalized := strLower group
    match lookupStr srcs normalized with
    | some prev =>
      if prev ≠ groupRaw then
        .error ⟨"DUPLICATE_GROUP_NAME", "Group names collide after sanitization."⟩
      else buildGroupsA rest srcs (appendFile groups group f)
    | none => buildGroupsA rest (srcs ++ [(normalized, groupRaw)])
        (appendFile groups group f)

/-- The layout-B grouping loop: any nested path is rejected; group key is the
sanitized file stem. -/
def buildGroupsB : List String → List (String × String) →
    List (String × List String) → Except KWError (List (String × List String))
  | [], _, groups => .ok groups
  | f :: rest, srcs, groups =>
    if (pparts (parsePath f)).length > 1 then
      .error ⟨"INVALID_KW_ZIP_LAYOUT",
        "Nested folders are not allowed for flat KW ZIP layout."⟩
    else
      let stemRaw := pyStem (pathName (parsePath f))
      let group := sanitize_group_name stemRaw
      let normalized := strLower group
      match lookupStr srcs normalized with
      | some prev =>
        if prev ≠ stemRaw then
          .error ⟨"DUPLICATE_GROUP_NAME", "Group names collide after sanitization."⟩
        else buildGroupsB rest srcs (appendFile groups group f)
      | none => buildGroupsB rest (srcs ++ [(normalized, stemRaw)])
          (appendFile groups group f)

/-- `kw_zip.py` `_ensure_group_rules`. -/
def ensure_group_rules (groups : List (String × List String)) :
    Except KWError Unit :=
  if groups.any (fun g => g.1 = "") then
    .error ⟨"INVALID_GROUP_NAME", "Group names cannot be empty after sanitization."⟩
  else if (groups.map (fun g => strLower g.1)).dedup.length ≠ groups.length then
    .error ⟨"DUPLICATE_GROUP_NAME", "Group names collide after sanitization."⟩
  else if groups.length < 2 then
    .error ⟨"INSUFFICIENT_GROUPS", "At least two groups are required."⟩
  else if groups.any (fun g => g.2.length = 0) then
    .error ⟨"EMPTY_GROUP", "Each group must include at least one CSV file."⟩
  else .ok ()

/-- Insertion into a list sorted by `le`. -/
def insertBy {α : Type} (le : α → α → Bool) (x : α) : List α → List α
  | [] => [x]
  | y :: ys => if le x y then x :: y :: ys else y :: insertBy le x ys

/-- Insertion sort by `le` (Python `sorted` on unique keys). -/
def sortBy {α : Type} (le : α → α → Bool) : List α → List α
  | [] => []
  | x :: xs => insertBy le x (sortBy le xs)

/-- String order used by Python `sorted` (code-point comparison). -/
def strLe (a b : String) : Bool := !(charListLt b.data a.data)

/-- `kw_zip.py` `validate_kw_zip` over the archive's entry names. -/
def validate_kw_zip (filenames : List String) : Except KWError KWZipLayout :=
  let csvs := csvEntries filenames
  if csvs.isEmpty then
    .error ⟨"INVALID_KW_ZIP_LAYOUT", "ZIP must include at least two CSV files."⟩
  else
    let hasFolder := csvs.any (fun f => (pparts (parsePath f)).length > 1)
    let hasRoot := csvs.any (fun f => (pparts (parsePath f)).length == 1)
    if hasFolder && hasRoot then
      .error ⟨"MIXED_KW_ZIP_LAYOUT", "Do not mix root-level CSVs with grouped folders."⟩
    else
      match (if hasFolder then buildGroupsA csvs [] [] else buildGroupsB csvs [] []) with
      | .error e => .error e
      | .ok groups =>
        match ensure_group_rules groups with
        | .error e => .error e
        | .ok _ =>
          .ok { layout := if hasFolder then "A" else "B"
                groups := (sortBy (fun a b => strLe a.1 b.1) groups).map
                  (fun g => { name := g.1, files := sortBy strLe g.2 }) }

/-! ## Theorems -/

/-- One history step preserves `0 ≤ counter ≤ limit`. -/
theorem semStep_inv (limit : Int) (hlim : 0 ≤ limit) (sem : Option Int)
    (h0 : 0 ≤ JobSemaphore.semVal sem) (h1 : JobSemaphore.semVal sem ≤ limit)
    (op : JobSemaphore.SemOp) :
    0 ≤ JobSemaphore.semVal (JobSemaphore.semStep limit sem op) ∧
      JobSemaphore.semVal (JobSemaphore.semStep limit sem op) ≤ limit := by
  cases op with
  | acq =>
    simp only [JobSemaphore.semStep, JobSemaphore.acquire, JobSemaphore.semVal]
      at h0 h1 ⊢
    by_cases h : sem.getD 0 ≥ limit
    · simpa [h] using ⟨h0, h1⟩
    · simp only [h, if_false, Option.getD_some]
      omega
  | rel =>
    simp only [JobSemaphore.semStep, JobSemaphore.release, JobSemaphore.semVal]
      at h0 h1 ⊢
    by_cases h : sem.getD 0 ≤ 0
    · simp only [h, if_true, Option.getD_none]
      omega
    · by_cases h2 : sem.getD 0 - 1 ≤ 0
      · simp only [h, if_false, h2, if_true, Option.getD_none]
        omega
      · simp only [h, if_false, h2, Option.getD_some]
        omega

/-- The invariant `0 ≤ counter ≤ limit` is preserved by any history run from a
state satisfying it. -/
theorem runFrom_inv (limit : Int) (hlim : 0 ≤ limit) :
    ∀ (ops : List JobSemaphore.SemOp) (sem : Option Int),
      0 ≤ JobSemaphore.semVal sem → JobSemaphore.semVal sem ≤ limit →
      0 ≤ JobSemaphore.semVal (JobSemaphore.runFrom limit sem ops) ∧
        JobSemaphore.semVal (JobSemaphore.runFrom limit sem ops) ≤ limit
  | [], _, h0, h1 => ⟨h0, h1⟩
  | op :: ops, sem, h0, h1 => by
    have hstep := semStep_inv limit hlim sem h0 h1 op
    exact runFrom_inv limit hlim ops _ hstep.1 hstep.2

/-- Claim C1: for any interleaved `acquire`/`release` history against the
shared counter with limit `N ≥ 0`, the counter value never exceeds `N` and
never falls below zero (every history, hence every intermediate point of any
history, satisfies the bound); `acquire` returns false without mutating the
counter when it is already at or above `N`; and `release` deletes the counter
key once the count reaches zero. -/
theorem c1_semaphore_bound (limit : Int) (hlim : 0 ≤ limit)
    (ops : List JobSemaphore.SemOp) :
    (0 ≤ JobSemaphore.semVal (JobSemaphore.runSem limit ops) ∧
      JobSemaphore.semVal (JobSemaphore.runSem limit ops) ≤ limit)
    ∧ (∀ sem : Option Int, limit ≤ JobSemaphore.semVal sem →
        JobSemaphore.acquire sem limit = (false, sem))
    ∧ (∀ sem : Option Int, JobSemaphore.semVal sem ≤ 1 →
        JobSemaphore.release sem = none) := by
  refine ⟨runFrom_inv limit hlim ops none (by simp [JobSemaphore.semVal])
    (by simp [JobSemaphore.semVal]; exact hlim), ?_, ?_⟩
  · intro sem h
    simp [JobSemaphore.acquire, ge_iff_le, h]
  · intro sem h
    by_cases h0 : JobSemaphore.semVal sem ≤ 0
    · simp [JobSemaphore.release, h0]
    · have : JobSemaphore.semVal sem - 1 ≤ 0 := by omega
      simp [JobSemaphore.release, h0, this]

/-- Witness for C1 at limit 2 and the history acquire, acquire, acquire,
release. -/
theorem c1_semaphore_bound_witness :
    0 ≤ JobSemaphore.semVal (JobSemaphore.runSem 2
      [JobSemaphore.SemOp.acq, JobSemaphore.SemOp.acq, JobSemaphore.SemOp.acq,
        JobSemaphore.SemOp.rel]) ∧
    JobSemaphore.semVal (JobSemaphore.runSem 2
      [JobSemaphore.SemOp.acq, JobSemaphore.SemOp.acq, JobSemaphore.SemOp.acq,
        JobSemaphore.SemOp.rel]) ≤ 2 :=
  (c1_semaphore_bound 2 (by decide)
    [JobSemaphore.SemOp.acq, JobSemaphore.SemOp.acq, JobSemaphore.SemOp.acq,
      JobSemaphore.SemOp.rel]).1

/-- Reading a key back after `SET`: the written key returns the new value and
every other key is untouched. -/
theorem getKey_setKey (m : List (String × JobDict)) (k q : String) (v : JobDict) :
    getKey (setKey m k v) q = if q = k then some v else getKey m q := by
  induction m with
  | nil =>
    by_cases h : q = k
    · subst h
      simp [setKey, getKey]
    · have h' : ¬ k = q := fun hh => h hh.symm
      simp [setKey, getKey, h, h']
  | cons hd tl ih =>
    obtain ⟨a, b⟩ := hd
    by_cases hak : a = k
    · subst hak
      simp only [setKey, if_pos rfl, getKey]
      by_cases hq : q = a
      · subst hq
        simp
      · have h' : ¬ a = q := fun hh => hq hh.symm
        simp [hq, h']
    · simp only [setKey, if_neg hak, getKey]
      by_cases haq : a = q
      · have hqk : ¬ q = k := fun hh => hak (haq.trans hh)
        rw [if_pos haq, if_neg hqk, if_pos haq]
      · rw [if_neg haq, ih]
        by_cases hqk : q = k
        · rw [if_pos hqk, if_pos hqk]
        · rw [if_neg hqk, if_neg hqk, if_neg haq]

/-- Timezone-awareness of an optional datetime (vacuously true when absent). -/
def awareOpt : Option PyDatetime → Bool
  | none => true
  | some d => d.aware

/-- All timestamps of a record are timezone-aware (as every record built by
the system is: `_utcnow` and `_parse_datetime` both return aware values). -/
def JobRecord.allTimesAware (r : JobRecord) : Bool :=
  r.created_at.aware && awareOpt r.started_at && awareOpt r.finished_at

/-- Serialisation round-trip on records whose timestamps are all aware. -/
theorem from_to_dict (r : JobRecord) (h : r.allTimesAware = true) :
    JobRecord.from_dict r.to_dict = r := by
  obtain ⟨id, ty, s, c, sa, fa, t, p, e⟩ := r
  simp only [JobRecord.allTimesAware, Bool.and_eq_true] at h
  obtain ⟨⟨hc, hsa⟩, hfa⟩ := h
  obtain ⟨pp, ps, pm⟩ := p
  have h1 : parseDatetime1 c = c := by simp [parseDatetime1, hc]
  have h2 : parseDatetime sa = sa := by
    cases sa with
    | none => rfl
    | some d =>
      simp only [awareOpt] at hsa
      simp [parseDatetime, parseDatetime1, hsa]
  have h3 : parseDatetime fa = fa := by
    cases fa with
    | none => rfl
    | some d =>
      simp only [awareOpt] at hfa
      simp [parseDatetime, parseDatetime1, hfa]
  simp [JobRecord.from_dict, JobRecord.to_dict, JobProgress.from_dict,
    JobProgress.to_dict, h1, h2, h3]

/-- Claim C9 (amended): `save` then `get` on the same id returns a record
structurally identical to the one saved, for every record whose timestamps
are timezone-aware. -/
theorem c9_save_get_roundtrip (st : RepoState) (r : JobRecord)
    (h : r.allTimesAware = true) :
    JobRepository.get (JobRepository.save st r).1 r.job_id = some r := by
  simp only [JobRepository.get, JobRepository.save, getKey_setKey, if_pos rfl,
    Option.map_some]
  exact congrArg some (from_to_dict r h)

/-- A record carrying a naive (timezone-unaware) `created_at`. -/
def c9naiveRecord : JobRecord :=
  { job_id := "j", job_type := "BOOTSTRAP_SINGLE", status := .QUEUED
    created_at := { micros := 0, aware := false }
    started_at := none, finished_at := none, task_id := none
    progress := JobProgress.init, error := none }

/-- Counterexample for C9 as stated: a constructed record with a naive
`created_at` does not round-trip structurally — `get` returns it with the
timestamp coerced to its UTC-aware counterpart. -/
theorem c9_save_get_roundtrip_counterexample :
    JobRepository.get (JobRepository.save ⟨[], []⟩ c9naiveRecord).1 "j" =
      some { c9naiveRecord with created_at := { micros := 0, aware := true } }
    ∧ ({ c9naiveRecord with created_at := { micros := 0, aware := true } }
        : JobRecord) ≠ c9naiveRecord := by
  decide

/-- A concrete record with aware timestamps. -/
def c9awareRecord : JobRecord :=
  { job_id := "k", job_type := "KW_PERMUTATION", status := .COMPLETED
    created_at := { micros := 1, aware := true }
    started_at := some { micros := 2, aware := true }
    finished_at := some { micros := 3, aware := true }
    task_id := some "t-1"
    progress := { percent := 100, step := some "completed", message := none }
    error := none }

/-- Witness for the amended C9 at a concrete record. -/
theorem c9_save_get_roundtrip_witness :
    JobRepository.get (JobRepository.save ⟨[], []⟩ c9awareRecord).1 "k" =
      some c9awareRecord :=
  c9_save_get_roundtrip ⟨[], []⟩ c9awareRecord (by decide)

/-- Claim C10: `update_status` overwrites `error` with the supplied argument
unconditionally (so supplying no error erases a stored one), overwrites
`started_at`/`finished_at` only when supplied, and leaves the job id, job
type, creation time, task id and progress unchanged. -/
theorem c10_update_status_frame (st : RepoState) (jobId : String)
    (r : JobRecord) (status : JobStatus) (sa fa : Option PyDatetime)
    (err : Option String) (h : JobRepository.get st jobId = some r) :
    JobRepository.update_status st jobId status sa fa err =
      .ok (JobRepository.save st
        { job_id := r.job_id, job_type := r.job_type, status := status
          created_at := r.created_at
          started_at := sa.or r.started_at
          finished_at := fa.or r.finished_at
          task_id := r.task_id, progress := r.progress, error := err }) := by
  simp only [JobRepository.update_status, h]
  cases sa <;> cases fa <;> rfl

/-- Store for the C10 witness: job "j" stored FAILED with an error message. -/
def c10store : RepoState :=
  (JobRepository.save ⟨[], []⟩
    { job_id := "j", job_type := "BOOTSTRAP_SINGLE", status := .FAILED
      created_at := { micros := 0, aware := true }
      started_at := some { micros := 1, aware := true }
      finished_at := none, task_id := none
      progress := JobProgress.init, error := some "boom" }).1

/-- Witness for C10: updating the stored record without an error argument
erases the previously persisted "boom" while keeping `started_at`. -/
theorem c10_update_status_frame_witness :
    JobRepository.update_status c10store "j" .COMPLETED none
        (some { micros := 2, aware := true }) none =
      .ok (JobRepository.save c10store
        { job_id := "j", job_type := "BOOTSTRAP_SINGLE", status := .COMPLETED
          created_at := { micros := 0, aware := true }
          started_at := some { micros := 1, aware := true }
          finished_at := some { micros := 2, aware := true }
          task_id := none, progress := JobProgress.init, error := none }) := by
  have h := c10_update_status_frame c10store "j"
    { job_id := "j", job_type := "BOOTSTRAP_SINGLE", status := .FAILED
      created_at := { micros := 0, aware := true }
      started_at := some { micros := 1, aware := true }
      finished_at := none, task_id := none
      progress := JobProgress.init, error := some "boom" }
    .COMPLETED none (some { micros := 2, aware := true }) none (by decide)
  exact h

/-- A COMPLETED (terminal) record used to probe terminal-state enforcement. -/
def c3completedRecord : JobRecord :=
  { job_id := "j", job_type := "BOOTSTRAP_SINGLE", status := .COMPLETED
    created_at := { micros := 0, aware := true }
    started_at := some { micros := 1, aware := true }
    finished_at := some { micros := 2, aware := true }
    task_id := none, progress := JobProgress.init, error := none }

/-- Store holding the COMPLETED record under id "j". -/
def c3store : RepoState := (JobRepository.save ⟨[], []⟩ c3completedRecord).1

/-- Counterexample for C3 as stated: the repository's `update_status` performs
no terminal-state check — on a store holding job "j" as COMPLETED, a single
`update_status` call silently succeeds and moves the job back to RUNNING. -/
theorem c3_monotonic_status_counterexample :
    JobRepository.get c3store "j" = some c3completedRecord
    ∧ c3completedRecord.status.isTerminal = true
    ∧ (JobRepository.update_status c3store "j" .RUNNING none none
        none).toOption.map (fun p => p.2.status) = some .RUNNING := by
  decide

/-- Claim C3 (amended): only `JobService.cancel_job` guards terminal states —
cancelling a job whose record is already terminal fails with the 409
`INVALID_STATE` error instead of silently succeeding — while the repository
operations perform no such check: `update_status` on any stored record, of
any status, succeeds and installs the requested status. -/
theorem c3_terminal_guard (st : RepoState) (jobId : String) (r : JobRecord)
    (t : PyDatetime) (h : JobRepository.get st jobId = some r) :
    (r.status.isTerminal = true →
      JobService.cancel_job st jobId t =
        .error ⟨409, "INVALID_STATE",
          "Job " ++ jobId ++ " is already " ++ r.status.value ++ "."⟩)
    ∧ (∀ (s : JobStatus) (sa fa : Option PyDatetime) (err : Option String),
        ∃ st' r', JobRepository.update_status st jobId s sa fa err =
          .ok (st', r') ∧ r'.status = s) := by
  constructor
  · intro hterm
    simp [JobService.cancel_job, h, hterm]
  · intro s sa fa err
    simp only [JobRepository.update_status, h]
    exact ⟨_, _, rfl, rfl⟩

/-- Witness for the amended C3: cancelling the COMPLETED job "j" fails with
409 `INVALID_STATE`. -/
theorem c3_terminal_guard_witness :
    JobService.cancel_job c3store "j" { micros := 9, aware := true } =
      .error ⟨409, "INVALID_STATE", "Job j is already COMPLETED."⟩ := by
  have hs : ("Job " ++ "j" ++ " is already " ++ c3completedRecord.status.value
      ++ "." : String) = "Job j is already COMPLETED." := by decide
  have h := (c3_terminal_guard c3store "j" c3completedRecord
    { micros := 9, aware := true } (by decide)).1 (by decide)
  rw [hs] at h
  exact h

/-- After `execute`'s initial save, the job's key is present, so the
subsequent fetch-mutate-store calls find a record. -/
theorem save_get_isSome (st0 : RepoState) (r : JobRecord) (jobId : String)
    (h : r.job_id = jobId ∨ ∃ d, getKey st0.jobs (jobKey jobId) = some d) :
    ∃ r', JobRepository.get (JobRepository.save st0 r).1 jobId = some r' := by
  simp only [JobRepository.get, JobRepository.save, getKey_setKey]
  by_cases hk : jobKey jobId = jobKey r.job_id
  · rw [if_pos hk]
    exact ⟨_, rfl⟩
  · rw [if_neg hk]
    rcases h with h | ⟨d, hd⟩
    · exact absurd (by rw [h]) hk
    · rw [hd]
      exact ⟨_, rfl⟩

theorem initial_save_get (st0 : RepoState) (jobId jobType : String)
    (tNew : PyDatetime) :
    ∃ r', JobRepository.get
      (JobRepository.save st0 (JobRunner.initialRecord st0 jobId jobType tNew)).1 jobId
        = some r' := by
  apply save_get_isSome
  cases h : JobRepository.get st0 jobId with
  | none =>
    left
    unfold JobRunner.initialRecord
    rw [h]
  | some r =>
    right
    simp only [JobRepository.get] at h
    cases hd : getKey st0.jobs (jobKey jobId) with
    | none => rw [hd] at h; simp at h
    | some d => exact ⟨d, rfl⟩

/-- Claim C2 (amended): the cancellation flag is cleared and the semaphore
released exactly once on every exit path on which the semaphore was acquired
(the `finally` block); on the admission-rejection exit path — which returns
before the `try` block — neither happens. -/
theorem c2_clear_release_scope (maxConc : Int) (st0 : RepoState)
    (sem0 : Option Int) (jobId jobType : String)
    (runJob : RepoState → RepoState × RunOutcome)
    (tNew tStart tFinish : PyDatetime) :
    (JobRunner.execute maxConc st0 sem0 jobId jobType runJob tNew tStart
        tFinish).clearFlagCalls
      = (if (JobSemaphore.acquire sem0 maxConc).1 then 1 else 0)
    ∧ (JobRunner.execute maxConc st0 sem0 jobId jobType runJob tNew tStart
        tFinish).releaseCalls
      = (if (JobSemaphore.acquire sem0 maxConc).1 then 1 else 0) := by
  obtain ⟨r', hr⟩ := initial_save_get st0 jobId jobType tNew
  by_cases hadm : (JobSemaphore.acquire sem0 maxConc).1 = true
  · simp only [JobRunner.execute, hadm, if_true,
      JobRepository.update_status, hr]
    constructor <;> (split <;> rfl)
  · simp only [JobRunner.execute, Bool.not_eq_true] at hadm ⊢
    simp only [hadm, Bool.false_eq_true, if_false]
    constructor <;> (split <;> rfl)

/-- The rejection-path trace used as the C2 counterexample: the flag for job
"j" is set, the semaphore is full (counter 1, limit 1). -/
def c2rejectTrace : ExecOutcome :=
  JobRunner.execute 1 ⟨[], ["j"]⟩ (some 1) "j" "BOOTSTRAP_SINGLE"
    (fun st => (st, .ok)) { micros := 0, aware := true }
    { micros := 1, aware := true } { micros := 2, aware := true }

/-- Counterexample for C2 as stated: on the admission-rejection exit path the
record is returned, but the cancellation flag is not cleared (it is still
set afterwards) and the semaphore is not released — neither happens "exactly
once". -/
theorem c2_clear_release_scope_counterexample :
    c2rejectTrace.clearFlagCalls = 0 ∧ c2rejectTrace.releaseCalls = 0
    ∧ c2rejectTrace.repo.flags = ["j"] ∧ c2rejectTrace.sem = some 1
    ∧ c2rejectTrace.ret.isSome = true := by
  decide

/-- Claim C5: when the semaphore denies admission (counter already at or
above the limit), `execute` moves the job to FAILED with error "Concurrency
limit reached" and a finish timestamp, runs full directory cleanup
(`cleanup_job`), and returns the record without raising; the only status
written through `update_status` is FAILED — the job never enters RUNNING —
and the semaphore is left untouched. -/
theorem c5_concurrency_rejection (maxConc : Int) (st0 : RepoState)
    (sem0 : Option Int) (jobId jobType : String)
    (runJob : RepoState → RepoState × RunOutcome)
    (tNew tStart tFinish : PyDatetime)
    (h : maxConc ≤ JobSemaphore.semVal sem0) :
    ∃ fin,
      (JobRunner.execute maxConc st0 sem0 jobId jobType runJob tNew tStart
          tFinish).ret = some fin
      ∧ fin.status = .FAILED
      ∧ fin.error = some "Concurrency limit reached"
      ∧ fin.finished_at = some tFinish
      ∧ (JobRunner.execute maxConc st0 sem0 jobId jobType runJob tNew tStart
          tFinish).raised = none
      ∧ (JobRunner.execute maxConc st0 sem0 jobId jobType runJob tNew tStart
          tFinish).cleanupJobCalls = 1
      ∧ (JobRunner.execute maxConc st0 sem0 jobId jobType runJob tNew tStart
          tFinish).statusUpdates = [.FAILED]
      ∧ (JobRunner.execute maxConc st0 sem0 jobId jobType runJob tNew tStart
          tFinish).sem = sem0 := by
  obtain ⟨r', hr⟩ := initial_save_get st0 jobId jobType tNew
  have hacq : JobSemaphore.acquire sem0 maxConc = (false, sem0) := by
    simp [JobSemaphore.acquire, ge_iff_le, h]
  simp only [JobRunner.execute, hacq, Bool.false_eq_true, if_false,
    JobRepository.update_status, hr]
  refine ⟨_, rfl, ?_, ?_, ?_, ?_, ?_, ?_, ?_⟩ <;> trivial

/-- Witness for C5: a full semaphore (counter 2, limit 2) rejects the job. -/
theorem c5_concurrency_rejection_witness :
    ∃ fin,
      (JobRunner.execute 2 ⟨[], []⟩ (some 2) "j" "BOOTSTRAP_SINGLE"
          (fun st => (st, .ok)) { micros := 0, aware := true }
          { micros := 1, aware := true } { micros := 2, aware := true }).ret
        = some fin
      ∧ fin.status = .FAILED
      ∧ fin.error = some "Concurrency limit reached"
      ∧ fin.finished_at = some { micros := 2, aware := true }
      ∧ (JobRunner.execute 2 ⟨[], []⟩ (some 2) "j" "BOOTSTRAP_SINGLE"
          (fun st => (st, .ok)) { micros := 0, aware := true }
          { micros := 1, aware := true } { micros := 2, aware := true }).raised
        = none
      ∧ (JobRunner.execute 2 ⟨[], []⟩ (some 2) "j" "BOOTSTRAP_SINGLE"
          (fun st => (st, .ok)) { micros := 0, aware := true }
          { micros := 1, aware := true }
          { micros := 2, aware := true }).cleanupJobCalls = 1
      ∧ (JobRunner.execute 2 ⟨[], []⟩ (some 2) "j" "BOOTSTRAP_SINGLE"
          (fun st => (st, .ok)) { micros := 0, aware := true }
          { micros := 1, aware := true }
          { micros := 2, aware := true }).statusUpdates = [.FAILED]
      ∧ (JobRunner.execute 2 ⟨[], []⟩ (some 2) "j" "BOOTSTRAP_SINGLE"
          (fun st => (st, .ok)) { micros := 0, aware := true }
          { micros := 1, aware := true } { micros := 2, aware := true }).sem
        = some 2 :=
  c5_concurrency_rejection 2 ⟨[], []⟩ (some 2) "j" "BOOTSTRAP_SINGLE"
    (fun st => (st, .ok)) { micros := 0, aware := true }
    { micros := 1, aware := true } { micros := 2, aware := true } (by decide)

/-- Claim C6: `_guard` raises the cancellation signal when the job's
cancellation flag is set (checked first); otherwise it raises the timeout
signal exactly when the current time is strictly after the deadline;
otherwise it passes.  (`jobGuard` only reads the store — it takes no state to
a new state — so the no-side-effects part of the claim holds by the shape of
the embedding.) -/
theorem c6_guard_behaviour (st : RepoState) (jobId : String)
    (now deadline : PyDatetime) :
    (JobRepository.is_cancel_requested st jobId = true →
      jobGuard st jobId now deadline = .cancelledSignal)
    ∧ (JobRepository.is_cancel_requested st jobId = false →
        (jobGuard st jobId now deadline = .timeoutSignal ↔
          deadline.micros < now.micros))
    ∧ (JobRepository.is_cancel_requested st jobId = false →
        now.micros ≤ deadline.micros →
        jobGuard st jobId now deadline = .passed) := by
  refine ⟨?_, ?_, ?_⟩
  · intro hflag
    simp [jobGuard, hflag]
  · intro hflag
    by_cases h2 : deadline.micros < now.micros
    · simp [jobGuard, hflag, h2]
    · simp [jobGuard, hflag, h2]
  · intro hflag h2
    simp [jobGuard, hflag]
    omega

/-- Witness for C6: a set flag wins over an expired deadline; with no flag,
an expired deadline times out and an unexpired one passes. -/
theorem c6_guard_behaviour_witness :
    jobGuard ⟨[], ["j"]⟩ "j" { micros := 5, aware := true }
        { micros := 3, aware := true } = .cancelledSignal
    ∧ jobGuard ⟨[], []⟩ "j" { micros := 5, aware := true }
        { micros := 3, aware := true } = .timeoutSignal
    ∧ jobGuard ⟨[], []⟩ "j" { micros := 3, aware := true }
        { micros := 3, aware := true } = .passed :=
  ⟨(c6_guard_behaviour ⟨[], ["j"]⟩ "j" { micros := 5, aware := true }
      { micros := 3, aware := true }).1 (by decide),
   ((c6_guard_behaviour ⟨[], []⟩ "j" { micros := 5, aware := true }
      { micros := 3, aware := true }).2.1 (by decide)).mpr (by decide),
   (c6_guard_behaviour ⟨[], []⟩ "j" { micros := 3, aware := true }
      { micros := 3, aware := true }).2.2 (by decide) (by decide)⟩

/-- `isInitSeg b c` holds exactly when `c` extends `b`. -/
theorem isInitSeg_iff (b c : List String) :
    isInitSeg b c = true ↔ ∃ t, c = b ++ t := by
  induction b generalizing c with
  | nil => simp [isInitSeg]
  | cons a as ih =>
    cases c with
    | nil => simp [isInitSeg]
    | cons x xs =>
      simp only [isInitSeg, Bool.and_eq_true, beq_iff_eq, ih]
      constructor
      · rintro ⟨ha, t, ht⟩
        exact ⟨t, by rw [ha, ht]; rfl⟩
      · rintro ⟨t, ht⟩
        injection ht with h1 h2
        exact ⟨h1.symm, t, h2⟩

/-- Membership in `parents`: exactly the proper initial segments. -/
theorem mem_parentsOf (b c : List String) :
    b ∈ parentsOf c ↔ ∃ n, n < c.length ∧ b = c.take n := by
  simp only [parentsOf, List.mem_map, List.mem_range]
  constructor
  · rintro ⟨n, hn, he⟩
    exact ⟨n, hn, he.symm⟩
  · rintro ⟨n, hn, he⟩
    exact ⟨n, hn, he.symm⟩

/-- The containment test of `safe_join` — candidate equal to the resolved base
or having it among its parents — is exactly the initial-segment relation. -/
theorem safeCond_iff (b c : List String) :
    (c = b ∨ b ∈ parentsOf c) ↔ isInitSeg b c = true := by
  rw [mem_parentsOf, isInitSeg_iff]
  constructor
  · rintro (rfl | ⟨n, hn, rfl⟩)
    · exact ⟨[], (List.append_nil _).symm⟩
    · exact ⟨c.drop n, (List.take_append_drop n c).symm⟩
  · rintro ⟨t, rfl⟩
    cases t with
    | nil =>
      left
      simp
    | cons x ts =>
      right
      refine ⟨b.length, ?_, ?_⟩
      · simp
      · simp

/-- Claim C4: `safe_join base parts` returns the resolved candidate exactly
when that candidate equals or sits strictly under the resolved base (the
resolved base's components are an initial segment of the candidate's), and
raises the path-traversal `ValueError` exactly otherwise. -/
theorem c4_safe_join_containment (cwd : List String) (base : PurePathM)
    (parts : List PurePathM) :
    (∀ p, safe_join cwd base parts = .ok p ↔
        (p = resolvedCandidate cwd base parts ∧
          isInitSeg (resolvedBase cwd base)
            (resolvedCandidate cwd base parts) = true))
    ∧ ((∃ e, safe_join cwd base parts = .error e) ↔
        isInitSeg (resolvedBase cwd base)
          (resolvedCandidate cwd base parts) = false) := by
  have hcond := safeCond_iff (resolvedBase cwd base)
    (resolvedCandidate cwd base parts)
  unfold safe_join
  by_cases h : (resolvedCandidate cwd base parts = resolvedBase cwd base ∨
      resolvedBase cwd base ∈ parentsOf (resolvedCandidate cwd base parts))
  · rw [if_pos h]
    have htrue := hcond.mp h
    constructor
    · intro p
      constructor
      · intro hp
        have : resolvedCandidate cwd base parts = p := by
          injection hp
        exact ⟨this.symm, htrue⟩
      · rintro ⟨rfl, _⟩
        rfl
    · constructor
      · rintro ⟨e, he⟩
        cases he
      · intro hfalse
        rw [htrue] at hfalse
        cases hfalse
  · rw [if_neg h]
    have hfalse : isInitSeg (resolvedBase cwd base)
        (resolvedCandidate cwd base parts) = false := by
      cases hb : isInitSeg (resolvedBase cwd base)
          (resolvedCandidate cwd base parts) with
      | true => exact absurd (hcond.mpr hb) h
      | false => rfl
    constructor
    · intro p
      constructor
      · intro hp
        cases hp
      · rintro ⟨rfl, ht⟩
        rw [ht] at hfalse
        cases hfalse
    · exact ⟨fun _ => hfalse, fun _ => ⟨_, rfl⟩⟩

/-- Concrete instances of C4 (the spec's examples): `"../escape"` and an
absolute path escaping the base are rejected, a plain child and the base
itself are accepted. -/
theorem safe_join_examples :
    exceptOk (safe_join ["home"] { absolute := true, comps := ["data"] }
        [parsePath "../escape"]) = false
    ∧ exceptOk (safe_join ["home"] { absolute := true, comps := ["data"] }
        [parsePath "/etc/passwd"]) = false
    ∧ (safe_join ["home"] { absolute := true, comps := ["data"] }
        [parsePath "job1/output"]).toOption = some ["data", "job1", "output"]
    ∧ (safe_join ["home"] { absolute := true, comps := ["data"] } []).toOption
        = some ["data"] := by
  decide

/-- The mtime/cutoff comparison rephrased as the spec's age condition. -/
theorem mtime_cond (t now m : Rat) : m ≤ now - t ↔ t ≤ now - m := by
  constructor <;> intro h <;> linarith

/-- A successful `safe_join` always returns the resolved candidate. -/
theorem safe_join_ok_value (cwd : List String) (base : PurePathM)
    (parts : List PurePathM) (p : List String)
    (h : safe_join cwd base parts = .ok p) :
    p = resolvedCandidate cwd base parts := by
  simp only [safe_join] at h
  split at h
  · injection h with h
    exact h.symm
  · cases h

/-- The sweep loop deletes exactly the directory entries that pass the
containment check and whose age reaches the TTL (everything when the TTL is
zero). -/
theorem sweepLoop_filter (cwd : List String) (storageRoot : PurePathM)
    (t now : Rat) :
    ∀ entries : List DirEntry,
      sweepLoop cwd storageRoot t (now - t) entries =
        (entries.filter (fun e =>
            e.isDir && exceptOk (safe_join cwd storageRoot [parsePath e.name])
              && (t == 0 || decide (t ≤ now - e.mtime)))).map
          (fun e => resolvedCandidate cwd storageRoot [parsePath e.name])
  | [] => rfl
  | e :: rest => by
    have ih := sweepLoop_filter cwd storageRoot t now rest
    by_cases hd : e.isDir
    · cases hsj : safe_join cwd storageRoot [parsePath e.name] with
      | error err =>
        simp [sweepLoop, hd, hsj, List.filter_cons, exceptOk, ih]
      | ok resolved =>
        have hres := safe_join_ok_value cwd storageRoot [parsePath e.name]
          resolved hsj
        by_cases hz : t = 0
        · subst hz
          simp [exceptOk] at ih
          simp [sweepLoop, hd, hsj, List.filter_cons, exceptOk, ih, hres]
        · by_cases hm : e.mtime ≤ now - t
          · have hage : t ≤ now - e.mtime := (mtime_cond t now e.mtime).mp hm
            simp [sweepLoop, hd, hsj, hz, hm, hage, List.filter_cons,
              exceptOk, ih, hres]
          · have hage : ¬ t ≤ now - e.mtime := fun hh =>
              hm ((mtime_cond t now e.mtime).mpr hh)
            simp [sweepLoop, hd, hsj, hz, hm, hage, List.filter_cons,
              exceptOk, ih, hres]
    · have hd' : e.isDir = false := by
        simpa using hd
      simp [sweepLoop, hd', List.filter_cons, ih]

/-- Claim C7: `sweep_expired_jobs` deletes exactly the top-level directory
entries whose age (`now` minus mtime) is at least `ttlHours` — all of them
when `ttlHours` is zero — skipping entries whose resolved path fails the
containment check; it deletes nothing when `ttlHours` is negative or absent
(or the storage root is missing), and returns the resolved paths deleted. -/
theorem c7_sweep_exactly_expired (cwd : List String) (storageRoot : PurePathM)
    (rootExists : Bool) (entries : List DirEntry) (ttlHours : Option Rat)
    (now : Rat) :
    sweep_expired_jobs cwd storageRoot rootExists entries ttlHours now =
      match ttlHours with
      | none => []
      | some t =>
        if t < 0 ∨ rootExists = false then []
        else
          (entries.filter (fun e =>
              e.isDir && exceptOk (safe_join cwd storageRoot [parsePath e.name])
                && (t == 0 || decide (t ≤ now - e.mtime)))).map
            (fun e => resolvedCandidate cwd storageRoot [parsePath e.name]) := by
  cases ttlHours with
  | none => rfl
  | some t =>
    simp only [sweep_expired_jobs]
    by_cases h1 : t < 0
    · simp [h1]
    · cases rootExists with
      | false => simp [h1]
      | true =>
        simp only [h1, if_false, Bool.not_true, Bool.false_eq_true, if_false]
        have := sweepLoop_filter cwd storageRoot t now entries
        simp only [this]
        simp [h1]

/-- Every failure of the layout-A grouping loop carries the duplicate-name
code. -/
theorem buildGroupsA_error_code :
    ∀ (fs : List String) (srcs : List (String × String))
      (gs : List (String × List String)) (e : KWError),
      buildGroupsA fs srcs gs = .error e → e.code = "DUPLICATE_GROUP_NAME"
  | [], _, _, e => by
    intro h
    cases h
  | f :: rest, srcs, gs, e => by
    intro h
    simp only [buildGroupsA] at h
    rcases hl : lookupStr srcs (strLower (sanitize_group_name
        ((pparts (parsePath f)).headD ""))) with _ | prev
    · rw [hl] at h
      dsimp only at h
      exact buildGroupsA_error_code rest _ _ e h
    · rw [hl] at h
      dsimp only at h
      by_cases hp : prev ≠ (pparts (parsePath f)).headD ""
      · rw [if_pos hp] at h
        injection h with h
        rw [← h]
      · rw [if_neg hp] at h
        exact buildGroupsA_error_code rest _ _ e h

/-- Every failure of the layout-B grouping loop carries the duplicate-name or
invalid-layout code. -/
theorem buildGroupsB_error_code :
    ∀ (fs : List String) (srcs : List (String × String))
      (gs : List (String × List String)) (e : KWError),
      buildGroupsB fs srcs gs = .error e →
      e.code = "DUPLICATE_GROUP_NAME" ∨ e.code = "INVALID_KW_ZIP_LAYOUT"
  | [], _, _, e => by
    intro h
    cases h
  | f :: rest, srcs, gs, e => by
    intro h
    simp only [buildGroupsB] at h
    by_cases hn : (pparts (parsePath f)).length > 1
    · rw [if_pos hn] at h
      injection h with h
      right
      rw [← h]
    · rw [if_neg hn] at h
      rcases hl : lookupStr srcs (strLower (sanitize_group_name
          (pyStem (pathName (parsePath f))))) with _ | prev
      · rw [hl] at h
        dsimp only at h
        exact buildGroupsB_error_code rest _ _ e h
      · rw [hl] at h
        dsimp only at h
        by_cases hp : prev ≠ pyStem (pathName (parsePath f))
        · rw [if_pos hp] at h
          injection h with h
          left
          rw [← h]
        · rw [if_neg hp] at h
          exact buildGroupsB_error_code rest _ _ e h

/-- Every failure of `_ensure_group_rules` carries one of its four codes. -/
theorem ensure_group_rules_error_code (gs : List (String × List String))
    (e : KWError) (h : ensure_group_rules gs = .error e) :
    e.code = "INVALID_GROUP_NAME" ∨ e.code = "DUPLICATE_GROUP_NAME"
      ∨ e.code = "INSUFFICIENT_GROUPS" ∨ e.code = "EMPTY_GROUP" := by
  simp only [ensure_group_rules] at h
  split_ifs at h <;> (injection h with h; simp [← h])

/-- Claim C8: when the qualifying CSV entries include both a nested entry
(more than one path component) and a root-level one (a single component),
`validate_kw_zip` fails with `MIXED_KW_ZIP_LAYOUT`; when they are uniformly
nested or uniformly root-level (or there are none), that code is never
raised. -/
theorem c8_mixed_layout (filenames : List String) :
    ((csvEntries filenames).any
        (fun f => (pparts (parsePath f)).length > 1) = true →
     (csvEntries filenames).any
        (fun f => (pparts (parsePath f)).length == 1) = true →
     validate_kw_zip filenames = .error ⟨"MIXED_KW_ZIP_LAYOUT",
       "Do not mix root-level CSVs with grouped folders."⟩)
    ∧ (¬((csvEntries filenames).any
          (fun f => (pparts (parsePath f)).length > 1) = true ∧
        (csvEntries filenames).any
          (fun f => (pparts (parsePath f)).length == 1) = true) →
       ∀ e, validate_kw_zip filenames = .error e →
         e.code ≠ "MIXED_KW_ZIP_LAYOUT") := by
  constructor
  · intro hnest hroot
    have hne : (csvEntries filenames).isEmpty = false := by
      cases hcs : csvEntries filenames with
      | nil => rw [hcs] at hnest; cases hnest
      | cons a l => simp [hcs]
    simp only [validate_kw_zip, hne, Bool.false_eq_true, if_false, hnest,
      hroot, Bool.and_self, if_true]
  · intro hmix e he
    cases hem : (csvEntries filenames).isEmpty with
    | true =>
      simp only [validate_kw_zip, hem, if_true] at he
      injection he with he
      simp [← he]
    | false =>
      have hff : ((csvEntries filenames).any
            (fun f => (pparts (parsePath f)).length > 1) &&
          (csvEntries filenames).any
            (fun f => (pparts (parsePath f)).length == 1)) = false := by
        cases h1 : (csvEntries filenames).any
            (fun f => (pparts (parsePath f)).length > 1) with
        | false => rw [Bool.false_and]
        | true =>
          cases h2 : (csvEntries filenames).any
              (fun f => (pparts (parsePath f)).length == 1) with
          | false => rw [Bool.true_and]
          | true => exact absurd ⟨h1, h2⟩ hmix
      simp only [validate_kw_zip, hem, Bool.false_eq_true, if_false, hff]
        at he
      rcases hbg : (if (csvEntries filenames).any
            (fun f => (pparts (parsePath f)).length > 1) then
          buildGroupsA (csvEntries filenames) [] []
        else buildGroupsB (csvEntries filenames) [] []) with e' | groups
      · rw [hbg] at he
        injection he with he
        subst he
        cases h1 : (csvEntries filenames).any
            (fun f => (pparts (parsePath f)).length > 1) with
        | false =>
          rw [if_neg (by simp [h1])] at hbg
          rcases buildGroupsB_error_code _ _ _ _ hbg with hc | hc <;>
            simp [hc]
        | true =>
          rw [if_pos h1] at hbg
          have hc := buildGroupsA_error_code _ _ _ _ hbg
          simp [hc]
      · rw [hbg] at he
        dsimp only at he
        rcases her : ensure_group_rules groups with e'' | u
        · rw [her] at he
          dsimp only at he
          injection he with he
          subst he
          rcases ensure_group_rules_error_code _ _ her with hc | hc | hc | hc
            <;> simp [hc]
        · rw [her] at he
          dsimp only at he
          cases he

/-- Witness for C8: a bundle mixing a folder CSV and a root CSV fails with
`MIXED_KW_ZIP_LAYOUT`. -/
theorem c8_mixed_layout_witness :
    validate_kw_zip ["g1/a.csv", "root.csv"] = .error ⟨"MIXED_KW_ZIP_LAYOUT",
      "Do not mix root-level CSVs with grouped folders."⟩ :=
  (c8_mixed_layout ["g1/a.csv", "root.csv"]).1 (by decide) (by decide)

end SmartComp
